import Mathlib

/-!
# Verification of the ipysettings schema-validated settings store

The repository ships a `Settings` class: a schema-driven, hierarchically
nested, validated configuration container.  The Python module `settings.py`
itself is not present in the repository snapshot (only the demo notebook
`settings_example.ipynb`, which imports and exercises it, and the README).
The definitions below are therefore a shallow embedding modelled from the
design specification (data model, validation rules, access protocol), with
the notebook's recorded outputs used as ground truth where they record the
actual behaviour of the class (the display representation, and the state
right after construction).

Modelling conventions:
* JSON numbers are rationals (`Rat`); the notebook only uses values that are
  exact in decimal.
* JSON text parsing/serialization is abstracted away: `from_json` takes an
  already-parsed `Json` value, and `to_mapping` produces one.  `ParseError`
  is out of scope of the proved properties.
* Python in-place mutation becomes functional update; "the stored value is
  left unchanged on failure" is expressed through `setD`, the state after an
  attempted `set`.
-/

namespace Ipysettings

/-! Parsed JSON values (the fragment the settings class consumes): numbers,
strings, booleans, null, and objects as ordered key/value sequences. -/
mutual
inductive Json where
  | num (q : Rat) : Json
  | str (s : String) : Json
  | bool (b : Bool) : Json
  | null : Json
  | obj (kvs : JsonObj) : Json

inductive JsonObj where
  | nil : JsonObj
  | cons (k : String) (v : Json) (rest : JsonObj) : JsonObj
end

/-- First-match lookup of a key in a JSON object. -/
def JsonObj.lookup : JsonObj → String → Option Json
  | .nil, _ => none
  | .cons k v rest, k' => if k = k' then some v else rest.lookup k'

/-- The four leaf field kinds recognized from a schema fragment's `type`
(`object` becomes a child node, not a leaf kind). -/
inductive Kind where
  | number
  | integer
  | string
  | boolean
deriving DecidableEq, Repr

/-- A stored leaf value: the coerced form of an accepted JSON value. -/
inductive Value where
  | num (q : Rat) : Value
  | int (n : Int) : Value
  | str (s : String) : Value
  | bool (b : Bool) : Value
deriving DecidableEq, Repr

/-- The error kinds of the design: schema construction errors, validation
errors on `set`, missing-key errors, subtree-overwrite errors, and JSON
parse errors (the last unused here since parsing is abstracted). -/
inductive SettingsError where
  | schemaError
  | validationError
  | keyError
  | typeError
  | parseError
deriving DecidableEq, Repr

/-- Kind-appropriate fallback used when a schema fragment gives no
`default`: `0`/`0.0` for numeric kinds, `false` for boolean, `""` for
string. -/
def Kind.fallback : Kind → Value
  | .number => .num 0
  | .integer => .int 0
  | .string => .str ""
  | .boolean => .bool false

/-- Field Descriptor: one leaf property extracted from a schema fragment.
`dflt` is the initialization value (schema `default`, coerced, or the kind
fallback). -/
structure FieldDesc where
  kind : Kind
  minimum : Option Rat
  maximum : Option Rat
  dflt : Value
  description : Option String
deriving DecidableEq, Repr

/-- Bounds check: `q` is at least `lo` (when given) and at most `hi` (when
given). -/
def boundOk (lo hi : Option Rat) (q : Rat) : Bool :=
  (match lo with
   | none => true
   | some a => decide (a ≤ q)) &&
  (match hi with
   | none => true
   | some b => decide (q ≤ b))

/-- Validate(value): returns the coerced accepted value or a
`validationError`.  Numeric kinds accept numeric JSON input subject to the
bounds; the integer kind additionally rejects non-integral numbers; strings
and booleans are accepted exactly at their own kind. -/
def FieldDesc.validate (fd : FieldDesc) (j : Json) : Except SettingsError Value :=
  match fd.kind, j with
  | .number, .num q =>
      if boundOk fd.minimum fd.maximum q then .ok (.num q) else .error .validationError
  | .integer, .num q =>
      if q.den = 1 then
        if boundOk fd.minimum fd.maximum q then .ok (.int q.num) else .error .validationError
      else .error .validationError
  | .string, .str s => .ok (.str s)
  | .boolean, .bool b => .ok (.bool b)
  | _, _ => .error .validationError

/-- Serialize a stored leaf value back to JSON (integers become integral
numbers). -/
def Value.toJson : Value → Json
  | .num q => .num q
  | .int n => .num (n : Rat)
  | .str s => .str s
  | .bool b => .bool b

/-- A stored value satisfies its descriptor when serializing it and
re-validating reproduces it unchanged. -/
def FieldDesc.accepts (fd : FieldDesc) (v : Value) : Bool :=
  match fd.validate v.toJson with
  | .ok w => decide (w = v)
  | .error _ => false

/-! The recursive settings tree: a node holds an optional title and an
ordered sequence of named entries; each entry is either a leaf
(descriptor plus current value) or a child node. -/
mutual
inductive Node where
  | mk (title : Option String) (entries : Entries) : Node

inductive Entry where
  | leaf (fd : FieldDesc) (v : Value) : Entry
  | child (c : Node) : Entry

inductive Entries where
  | nil : Entries
  | cons (k : String) (e : Entry) (rest : Entries) : Entries
end

def Node.title : Node → Option String
  | .mk t _ => t

def Node.entries : Node → Entries
  | .mk _ es => es

/-- First-match lookup of an entry by name. -/
def Entries.find : Entries → String → Option Entry
  | .nil, _ => none
  | .cons k e rest, k' => if k = k' then some e else rest.find k'

/-- The declared names, in order. -/
def Entries.keys : Entries → List String
  | .nil => []
  | .cons k _ rest => k :: rest.keys

/-- The entries as an association list (for membership statements). -/
def Entries.toList : Entries → List (String × Entry)
  | .nil => []
  | .cons k e rest => (k, e) :: rest.toList

/-- Replace the first entry named `k` (no-op when absent). -/
def Entries.put : Entries → String → Entry → Entries
  | .nil, _, _ => .nil
  | .cons k e rest, k', e' =>
      if k = k' then .cons k e' rest else .cons k e (rest.put k' e')

/-- Get(key): the entry stored under `key` (leaf or child node), or
`keyError`. -/
def Node.get (n : Node) (k : String) : Except SettingsError Entry :=
  match n.entries.find k with
  | none => .error .keyError
  | some e => .ok e

/-- Leaf read: the current value stored under `key` (a `typeError` marks a
read of a child node through this leaf-value projection). -/
def Node.getVal (n : Node) (k : String) : Except SettingsError Value :=
  match n.get k with
  | .ok (.leaf _ v) => .ok v
  | .ok (.child _) => .error .typeError
  | .error e => .error e

/-- Set on the entry sequence: `keyError` when `k` is absent, `typeError`
when `k` names a child node, otherwise validate and replace the stored
value. -/
def Entries.set : Entries → String → Json → Except SettingsError Entries
  | .nil, _, _ => .error .keyError
  | .cons k e rest, k', v =>
      if k = k' then
        match e with
        | .child _ => .error .typeError
        | .leaf fd _ =>
            match fd.validate v with
            | .ok w => .ok (.cons k (.leaf fd w) rest)
            | .error err => .error err
      else
        match rest.set k' v with
        | .ok rest' => .ok (.cons k e rest')
        | .error err => .error err

/-- Set(key, value): validated replacement of a leaf value. -/
def Node.set : Node → String → Json → Except SettingsError Node
  | .mk t es, k, v =>
      match es.set k v with
      | .ok es' => .ok (.mk t es')
      | .error err => .error err

/-- The state after an attempted `set`: on any failure the prior state is
kept unchanged. -/
def Node.setD (n : Node) (k : String) (v : Json) : Node :=
  match n.set k v with
  | .ok n' => n'
  | .error _ => n

/-- Replace the child node stored under `k` (used to express in-place
mutation of a retrieved child functionally). -/
def Node.putChild : Node → String → Node → Node
  | .mk t es, k, c => .mk t (es.put k (.child c))

/-- Chained read `node[k1][k2]`: retrieve the child at `k1`, then the entry
at `k2` from it. -/
def Node.getIn (n : Node) (k1 k2 : String) : Except SettingsError Entry :=
  match n.get k1 with
  | .ok (.child c) => c.get k2
  | .ok (.leaf _ _) => .error .typeError
  | .error e => .error e

/-- Chained write `node[k1][k2] = v`: retrieve the child at `k1`, set `k2`
on it, and (the functional rendering of Python's aliasing) write the mutated
child back in place. -/
def Node.setIn (n : Node) (k1 k2 : String) (v : Json) : Except SettingsError Node :=
  match n.get k1 with
  | .ok (.child c) =>
      match c.set k2 v with
      | .ok c' => .ok (n.putChild k1 c')
      | .error err => .error err
  | .ok (.leaf _ _) => .error .typeError
  | .error e => .error e

/-! LoadFromJSON (`from_json` in the source), past the parsing step: for each
entry whose name occurs in the input object, a leaf runs `Set` best-effort
(a validation failure keeps the old value and the load proceeds), and a
child node recurses into the nested sub-object; a scalar where a sub-object
is expected is silently skipped.  Input keys absent from the entries are
ignored; entries absent from the input keep their current value. -/
mutual
def Node.from_json : Node → Json → Node
  | .mk t es, .obj kvs => .mk t (Entries.load es kvs)
  | n, _ => n

def Entries.load : Entries → JsonObj → Entries
  | .nil, _ => .nil
  | .cons k e rest, kvs =>
      match kvs.lookup k with
      | none => .cons k e (Entries.load rest kvs)
      | some v => .cons k (Entry.load e v) (Entries.load rest kvs)

def Entry.load : Entry → Json → Entry
  | .leaf fd old, v =>
      match fd.validate v with
      | .ok w => .leaf fd w
      | .error _ => .leaf fd old
  | .child c, .obj kvs => .child (Node.from_json c (.obj kvs))
  | .child c, _ => .child c
end

/-! ToMapping: the plain nested mapping snapshotting current state (keys to
leaf values or nested mappings), the form serialized back to JSON text. -/
mutual
def Node.to_mapping : Node → Json
  | .mk _ es => .obj (Entries.to_mapping es)

def Entries.to_mapping : Entries → JsonObj
  | .nil => .nil
  | .cons k e rest => .cons k (Entry.mappingVal e) (Entries.to_mapping rest)

def Entry.mappingVal : Entry → Json
  | .leaf _ v => v.toJson
  | .child c => Node.to_mapping c
end

/-! The store invariant: every leaf value currently satisfies its Field
Descriptor's constraints, recursively through child nodes. -/
mutual
def Node.wf : Node → Bool
  | .mk _ es => Entries.wf es

def Entries.wf : Entries → Bool
  | .nil => true
  | .cons _ e rest => Entry.wf e && Entries.wf rest

def Entry.wf : Entry → Bool
  | .leaf fd v => fd.accepts v
  | .child c => Node.wf c
end

/-! Name uniqueness: within every node of the tree the entry names are
distinct ("names are unique within one node"). -/
mutual
def Node.keysOk : Node → Bool
  | .mk _ es => decide es.keys.Nodup && Entries.keysOk es

def Entries.keysOk : Entries → Bool
  | .nil => true
  | .cons _ e rest => Entry.keysOk e && Entries.keysOk rest

def Entry.keysOk : Entry → Bool
  | .leaf _ _ => true
  | .child c => Node.keysOk c
end

/-! Every leaf of the tree holds its descriptor's initialization value
(schema default or kind fallback). -/
mutual
def Node.atDefaults : Node → Bool
  | .mk _ es => Entries.atDefaults es

def Entries.atDefaults : Entries → Bool
  | .nil => true
  | .cons _ e rest => Entry.atDefaults e && Entries.atDefaults rest

def Entry.atDefaults : Entry → Bool
  | .leaf fd v => decide (v = fd.dflt)
  | .child _ => true
end

/-- Modelled from the source notebook's recorded outputs: the textual
representation of a node shows its title and a mapping holding only the
node's own scalar leaf values — entries that are child nodes are omitted
(executed cell: `Settings "Line Configuration" \x7b'loc': 'Area 52'\x7d`
right after the nested load, with the `Temperature` and `Flow` children
absent from the braces).  The string rendering itself is abstracted to the
displayed mapping. -/
def Entries.displayScalars : Entries → JsonObj
  | .nil => .nil
  | .cons k (.leaf _ v) rest => .cons k v.toJson (Entries.displayScalars rest)
  | .cons _ (.child _) rest => Entries.displayScalars rest

/-- The data of the display representation: the node's title together with
its displayed mapping (own scalar leaves only, see
`Entries.displayScalars`). -/
def Node.display (n : Node) : Option String × JsonObj :=
  (n.title, n.entries.displayScalars)

/-! Construction from a schema.  A Field Descriptor is built from a leaf
schema fragment: `kind` from `type` (unknown or missing `type` is a
`schemaError`), optional numeric bounds, and the `default` coerced through
`validate` (an out-of-bounds or wrongly-typed default is a `schemaError`);
with no `default` the kind fallback is used. -/

/-- The `title` string of a schema object, when present. -/
def JsonObj.titleOf (kvs : JsonObj) : Option String :=
  match kvs.lookup "title" with
  | some (.str s) => some s
  | _ => none

/-- Whether a schema fragment declares `"type": "object"`. -/
def JsonObj.isObjectType (kvs : JsonObj) : Bool :=
  match kvs.lookup "type" with
  | some (.str s) => s = "object"
  | _ => false

/-- Build a Field Descriptor from a leaf schema fragment. -/
def FieldDesc.build (fkvs : JsonObj) : Except SettingsError FieldDesc :=
  let kind? : Option Kind :=
    match fkvs.lookup "type" with
    | some (.str "number") => some .number
    | some (.str "integer") => some .integer
    | some (.str "string") => some .string
    | some (.str "boolean") => some .boolean
    | _ => none
  match kind? with
  | none => .error .schemaError
  | some kind =>
    let min? : Option Rat :=
      match fkvs.lookup "minimum" with
      | some (.num q) => some q
      | _ => none
    let max? : Option Rat :=
      match fkvs.lookup "maximum" with
      | some (.num q) => some q
      | _ => none
    let desc : Option String :=
      match fkvs.lookup "description" with
      | some (.str s) => some s
      | _ => none
    match fkvs.lookup "default" with
    | none => .ok ⟨kind, min?, max?, kind.fallback, desc⟩
    | some d =>
        match FieldDesc.validate ⟨kind, min?, max?, kind.fallback, desc⟩ d with
        | .ok w => .ok ⟨kind, min?, max?, w, desc⟩
        | .error _ => .error .schemaError

/-! Recursive node construction: walk the schema object's `properties` in
declared order; a fragment with `"type": "object"` becomes a child node
(recursively built from its own `title`/`properties`), any other fragment
becomes a leaf initialized to its descriptor's default/fallback value.
A missing or malformed `properties` yields an empty node. -/
mutual
def JsonObj.buildProps : JsonObj → Except SettingsError Entries
  | .nil => .ok .nil
  | .cons k v rest =>
      if k = "properties" then
        match v with
        | .obj props => Entries.build props
        | _ => .ok .nil
      else JsonObj.buildProps rest

def Entries.build : JsonObj → Except SettingsError Entries
  | .nil => .ok .nil
  | .cons k frag rest =>
      match frag with
      | .obj fkvs =>
          if fkvs.isObjectType then
            match JsonObj.buildProps fkvs, Entries.build rest with
            | .ok ces, .ok es => .ok (.cons k (.child (.mk fkvs.titleOf ces)) es)
            | .error err, _ => .error err
            | _, .error err => .error err
          else
            match FieldDesc.build fkvs, Entries.build rest with
            | .ok fd, .ok es => .ok (.cons k (.leaf fd fd.dflt) es)
            | .error err, _ => .error err
            | _, .error err => .error err
      | _ => .error .schemaError
end

/-- Construct(schema): build the node tree from a schema object (a
non-object schema yields an empty node, like a missing `properties`). -/
def Node.build : Json → Except SettingsError Node
  | .obj kvs =>
      match kvs.buildProps with
      | .ok es => .ok (.mk kvs.titleOf es)
      | .error err => .error err
  | _ => .ok (.mk none .nil)

/-- Total form of `Node.build` for naming concretely built nodes (falls
back to the empty node on a schema error). -/
def Node.buildD (s : Json) : Node :=
  match Node.build s with
  | .ok n => n
  | .error _ => .mk none .nil

/-! ## The notebook's concrete schemas and configuration inputs -/

/-- The thermostat schema of the notebook: `min_temp`/`max_temp` numbers in
`[-30, 150]` with defaults `62.0`/`75.0`, a `loc` string and an `alert`
boolean. -/
def thermostatSchema : Json :=
  .obj (.cons "title" (.str "Thermostat Configuration")
    (.cons "type" (.str "object")
      (.cons "properties" (.obj
        (.cons "min_temp" (.obj
          (.cons "description" (.str "Minimum temperature")
            (.cons "type" (.str "number")
              (.cons "minimum" (.num (-30))
                (.cons "maximum" (.num 150)
                  (.cons "default" (.num 62) .nil))))))
          (.cons "max_temp" (.obj
            (.cons "description" (.str "Maximum temperature")
              (.cons "type" (.str "number")
                (.cons "minimum" (.num (-30))
                  (.cons "maximum" (.num 150)
                    (.cons "default" (.num 75) .nil))))))
            (.cons "loc" (.obj
              (.cons "description" (.str "Location")
                (.cons "type" (.str "string") .nil)))
              (.cons "alert" (.obj
                (.cons "description" (.str "Activate alert function")
                  (.cons "type" (.str "boolean") .nil)))
                .nil)))))
        .nil)))

/-- The nested production-line schema of the notebook: object properties
`Temperature` (numbers `min_temp`/`max_temp`, boolean `alert`) and `Flow`
(integers `min_flow` in `[-42, 69]` default `23`, `max_flow` in `[0, 100]`
default `42`), and a `loc` string. -/
def lineSchema : Json :=
  .obj (.cons "title" (.str "Line Configuration")
    (.cons "type" (.str "object")
      (.cons "properties" (.obj
        (.cons "Temperature" (.obj
          (.cons "type" (.str "object")
            (.cons "properties" (.obj
              (.cons "min_temp" (.obj
                (.cons "description" (.str "Minimum temperature")
                  (.cons "type" (.str "number")
                    (.cons "minimum" (.num (-30))
                      (.cons "maximum" (.num 150)
                        (.cons "default" (.num 62) .nil))))))
                (.cons "max_temp" (.obj
                  (.cons "description" (.str "Maximum temperature")
                    (.cons "type" (.str "number")
                      (.cons "minimum" (.num (-30))
                        (.cons "maximum" (.num 150)
                          (.cons "default" (.num 75) .nil))))))
                  (.cons "alert" (.obj
                    (.cons "description" (.str "Activate alert function")
                      (.cons "type" (.str "boolean") .nil)))
                    .nil))))
              .nil)))
          (.cons "Flow" (.obj
            (.cons "type" (.str "object")
              (.cons "properties" (.obj
                (.cons "min_flow" (.obj
                  (.cons "description" (.str "Minimum Flow")
                    (.cons "type" (.str "integer")
                      (.cons "minimum" (.num (-42))
                        (.cons "maximum" (.num 69)
                          (.cons "default" (.num 23) .nil))))))
                  (.cons "max_flow" (.obj
                    (.cons "description" (.str "Maximum Flow")
                      (.cons "type" (.str "integer")
                        (.cons "minimum" (.num 0)
                          (.cons "maximum" (.num 100)
                            (.cons "default" (.num 42) .nil))))))
                    .nil)))
                .nil)))
            (.cons "loc" (.obj
              (.cons "description" (.str "Location")
                (.cons "type" (.str "string") .nil)))
              .nil))))
        .nil)))

/-- The flat thermostat configuration loaded in the notebook. -/
def thermostatConfig : JsonObj :=
  .cons "min_temp" (.num 42)
    (.cons "max_temp" (.num 69)
      (.cons "loc" (.str "Building 1")
        (.cons "alert" (.bool true) .nil)))

/-- The nested line configuration loaded in the notebook. -/
def lineConfig : JsonObj :=
  .cons "Temperature" (.obj
    (.cons "min_temp" (.num 42)
      (.cons "max_temp" (.num 69)
        (.cons "alert" (.bool true) .nil))))
    (.cons "Flow" (.obj
      (.cons "min_flow" (.num 10)
        (.cons "max_flow" (.num 88) .nil)))
      (.cons "loc" (.str "Area 52") .nil))

/-- The thermostat node right after construction. -/
def tNode : Node := Node.buildD thermostatSchema

/-- The line-configuration node right after construction. -/
def lNode : Node := Node.buildD lineSchema

/-- The thermostat node after the notebook's flat load. -/
def tLoaded : Node := tNode.from_json (.obj thermostatConfig)

/-- The line-configuration node after the notebook's nested load. -/
def lLoaded : Node := lNode.from_json (.obj lineConfig)

/-- The descriptor the thermostat schema's `min_temp` fragment builds. -/
def minTempFd : FieldDesc :=
  ⟨.number, some (-30), some 150, .num 62, some "Minimum temperature"⟩

/-- The descriptor the schemas' `max_temp` fragment builds. -/
def maxTempFd : FieldDesc :=
  ⟨.number, some (-30), some 150, .num 75, some "Maximum temperature"⟩

/-- The `Temperature` child of `lLoaded` (the notebook's
`temp_cfg = cfg['Temperature']`, retrieved after the nested load). -/
def tempCfg : Node :=
  match lLoaded.get "Temperature" with
  | .ok (.child c) => c
  | _ => .mk none .nil

/-- The `Temperature` child of the freshly constructed `lNode`. -/
def tempNodeInit : Node :=
  match lNode.get "Temperature" with
  | .ok (.child c) => c
  | _ => .mk none .nil

/-- The nested `Temperature` sub-object of `lineConfig`. -/
def tempSub : JsonObj :=
  .cons "min_temp" (.num 42)
    (.cons "max_temp" (.num 69)
      (.cons "alert" (.bool true) .nil))

/-- A public mutation: a single `Set` attempt or a bulk `LoadFromJSON`. -/
inductive Op where
  | set (k : String) (v : Json) : Op
  | load (j : Json) : Op

/-- Apply one public mutation (a rejected `set` keeps the prior state). -/
def Node.applyOp (n : Node) : Op → Node
  | .set k v => n.setD k v
  | .load j => n.from_json j

/-- Apply a sequence of public mutations in order. -/
def Node.applyOps (n : Node) (ops : List Op) : Node :=
  ops.foldl Node.applyOp n

/-! ## Lemmas about validation -/

/-- A value strictly below a declared minimum or strictly above a declared
maximum fails the bounds check. -/
theorem boundOk_out (lo hi : Option Rat) (q : Rat)
    (h : (∃ a, lo = some a ∧ q < a) ∨ (∃ b, hi = some b ∧ b < q)) :
    boundOk lo hi q = false := by
  rcases h with ⟨a, hl, hq⟩ | ⟨b, hh, hq⟩
  · subst hl
    have hna : ¬ (a ≤ q) := not_le.mpr hq
    simp [boundOk, hna]
  · subst hh
    have hnb : ¬ (q ≤ b) := not_le.mpr hq
    simp [boundOk, hnb]

/-- On a numeric field, a number outside the declared bounds is rejected
with a `validationError`. -/
theorem FieldDesc.validate_out_of_bounds (fd : FieldDesc) (q : Rat)
    (hkind : fd.kind = .number ∨ fd.kind = .integer)
    (hout : (∃ a, fd.minimum = some a ∧ q < a) ∨ (∃ b, fd.maximum = some b ∧ b < q)) :
    fd.validate (.num q) = .error .validationError := by
  have hb := boundOk_out fd.minimum fd.maximum q hout
  obtain ⟨kd, mn, mx, df, ds⟩ := fd
  simp only [FieldDesc.minimum, FieldDesc.maximum, FieldDesc.kind] at hb hkind
  rcases hkind with hk | hk <;> subst hk <;> simp [FieldDesc.validate, hb]

/-- A value accepted by `validate` satisfies its descriptor. -/
theorem FieldDesc.validate_accepts (fd : FieldDesc) (j : Json) (w : Value)
    (h : fd.validate j = .ok w) : fd.accepts w = true := by
  obtain ⟨kd, mn, mx, df, ds⟩ := fd
  cases kd <;> cases j <;> simp only [FieldDesc.validate] at h <;> try cases h
  all_goals try simp [FieldDesc.accepts, FieldDesc.validate, Value.toJson]
  case number.num q =>
    by_cases hb : boundOk mn mx q = true
    · rw [if_pos hb] at h
      cases h
      simp [FieldDesc.accepts, FieldDesc.validate, Value.toJson, hb]
    · rw [if_neg hb] at h
      cases h
  case integer.num q =>
    by_cases hd : q.den = 1
    · rw [if_pos hd] at h
      by_cases hb : boundOk mn mx q = true
      · rw [if_pos hb] at h
        cases h
        have hq : ((q.num : Rat)) = q := (Rat.den_eq_one_iff q).mp hd
        simp [FieldDesc.accepts, FieldDesc.validate, Value.toJson, Rat.den_intCast,
          Rat.num_intCast, hq, hd, hb]
      · rw [if_neg hb] at h
        cases h
    · rw [if_neg hd] at h
      cases h

/-! ## Lemmas about `find`, `put` and `set` -/

/-- A `set` on an absent name is a `keyError`. -/
theorem Entries.set_of_find_none : ∀ (es : Entries) (k : String) (v : Json),
    es.find k = none → es.set k v = .error .keyError
  | .nil, _, _, _ => rfl
  | .cons k0 e rest, k, v, h => by
      by_cases hk : k0 = k
      · simp [Entries.find, hk] at h
      · simp only [Entries.find, if_neg hk] at h
        simp [Entries.set, hk, Entries.set_of_find_none rest k v h]

/-- A `set` on a name holding a child node is a `typeError`. -/
theorem Entries.set_of_find_child : ∀ (es : Entries) (k : String) (c : Node) (v : Json),
    es.find k = some (.child c) → es.set k v = .error .typeError
  | .nil, k, c, v, h => by simp [Entries.find] at h
  | .cons k0 e rest, k, c, v, h => by
      by_cases hk : k0 = k
      · simp only [Entries.find, if_pos hk] at h
        cases h
        simp [Entries.set, hk]
      · simp only [Entries.find, if_neg hk] at h
        simp [Entries.set, hk, Entries.set_of_find_child rest k c v h]

/-- A `set` on a leaf whose validation fails propagates the validation
error. -/
theorem Entries.set_of_validate_error : ∀ (es : Entries) (k : String) (fd : FieldDesc)
    (v0 : Value) (v : Json) (err : SettingsError),
    es.find k = some (.leaf fd v0) → fd.validate v = .error err →
    es.set k v = .error err
  | .nil, k, fd, v0, v, err, h, _ => by simp [Entries.find] at h
  | .cons k0 e rest, k, fd, v0, v, err, h, hv => by
      by_cases hk : k0 = k
      · simp only [Entries.find, if_pos hk] at h
        cases h
        simp [Entries.set, hk, hv]
      · simp only [Entries.find, if_neg hk] at h
        simp [Entries.set, hk, Entries.set_of_validate_error rest k fd v0 v err h hv]

/-- A `set` on a leaf whose validation succeeds replaces exactly that
leaf's value with the coerced result. -/
theorem Entries.set_of_validate_ok : ∀ (es : Entries) (k : String) (fd : FieldDesc)
    (v0 : Value) (v : Json) (w : Value),
    es.find k = some (.leaf fd v0) → fd.validate v = .ok w →
    es.set k v = .ok (es.put k (.leaf fd w))
  | .nil, k, fd, v0, v, w, h, _ => by simp [Entries.find] at h
  | .cons k0 e rest, k, fd, v0, v, w, h, hv => by
      by_cases hk : k0 = k
      · simp only [Entries.find, if_pos hk] at h
        cases h
        simp [Entries.set, Entries.put, hk, hv]
      · simp only [Entries.find, if_neg hk] at h
        simp [Entries.set, Entries.put, hk,
          Entries.set_of_validate_ok rest k fd v0 v w h hv]

/-- After a `put` on a present name, `find` on that name returns the new
entry. -/
theorem Entries.find_put_of_find : ∀ (es : Entries) (k : String) (e0 e' : Entry),
    es.find k = some e0 → (es.put k e').find k = some e'
  | .nil, k, e0, e', h => by simp [Entries.find] at h
  | .cons k0 e rest, k, e0, e', h => by
      by_cases hk : k0 = k
      · simp [Entries.put, Entries.find, hk]
      · simp only [Entries.find, if_neg hk] at h
        simp [Entries.put, Entries.find, hk, Entries.find_put_of_find rest k e0 e' h]

/-- `Get` success exposes the underlying `find`. -/
theorem Node.find_of_get (n : Node) (k : String) (e : Entry)
    (h : n.get k = .ok e) : n.entries.find k = some e := by
  unfold Node.get at h
  cases hf : n.entries.find k <;> rw [hf] at h
  · cases h
  · cases h
    rfl

/-- Node-level `set` on an absent name is a `keyError`. -/
theorem Node.set_missing_key (n : Node) (k : String) (v : Json)
    (h : n.entries.find k = none) : n.set k v = .error .keyError := by
  obtain ⟨t, es⟩ := n
  simp only [Node.entries] at h
  simp [Node.set, Entries.set_of_find_none es k v h]

/-- Node-level `set` on a child-node name is a `typeError`. -/
theorem Node.set_child_key (n : Node) (k : String) (c : Node) (v : Json)
    (h : n.entries.find k = some (.child c)) : n.set k v = .error .typeError := by
  obtain ⟨t, es⟩ := n
  simp only [Node.entries] at h
  simp [Node.set, Entries.set_of_find_child es k c v h]

/-- A failed node-level `set` leaves the state unchanged. -/
theorem Node.setD_of_error (n : Node) (k : String) (v : Json) (err : SettingsError)
    (h : n.set k v = .error err) : n.setD k v = n := by
  unfold Node.setD
  rw [h]

/-! ## Preservation of the store invariant -/

/-- A successful `set` preserves entry-level well-formedness. -/
theorem Entries.wf_set : ∀ (es : Entries) (k : String) (v : Json) (es' : Entries),
    es.wf = true → es.set k v = .ok es' → es'.wf = true
  | .nil, k, v, es', _, h => by simp [Entries.set] at h
  | .cons k0 e rest, k, v, es', hwf, h => by
      simp only [Entries.wf, Bool.and_eq_true] at hwf
      obtain ⟨hwe, hwr⟩ := hwf
      by_cases hk : k0 = k
      · cases e with
        | child c => simp [Entries.set, if_pos hk] at h
        | leaf fd v0 =>
            simp only [Entries.set, if_pos hk] at h
            cases hv : fd.validate v with
            | ok w =>
                rw [hv] at h
                cases h
                simp [Entries.wf, Entry.wf, hwr, FieldDesc.validate_accepts fd v w hv]
            | error err =>
                rw [hv] at h
                cases h
      · simp only [Entries.set, if_neg hk] at h
        cases hr : rest.set k v with
        | ok rest' =>
            rw [hr] at h
            cases h
            simp [Entries.wf, hwe, Entries.wf_set rest k v rest' hwr hr]
        | error err =>
            rw [hr] at h
            cases h

/-- An attempted `set` (successful or rejected) preserves the invariant. -/
theorem Node.wf_setD (n : Node) (k : String) (v : Json) (h : n.wf = true) :
    (n.setD k v).wf = true := by
  obtain ⟨t, es⟩ := n
  cases hs : es.set k v with
  | ok es' =>
      have heq : (Node.mk t es).setD k v = .mk t es' := by
        simp only [Node.setD, Node.set, hs]
      rw [heq]
      simp only [Node.wf] at h ⊢
      exact Entries.wf_set es k v es' h hs
  | error err =>
      have heq : (Node.mk t es).setD k v = .mk t es := by
        simp only [Node.setD, Node.set, hs]
      rw [heq]
      exact h

/-! `LoadFromJSON` preserves the invariant: each leaf either keeps its old
(well-formed) value or receives a freshly validated one; children recurse. -/
mutual
theorem Node.wf_from_json : ∀ (n : Node) (j : Json), n.wf = true → (n.from_json j).wf = true
  | .mk t es, .obj kvs, h => by
      simp only [Node.wf] at h
      simpa [Node.from_json, Node.wf] using Entries.wf_load es kvs h
  | .mk t es, .num q, h => h
  | .mk t es, .str s, h => h
  | .mk t es, .bool b, h => h
  | .mk t es, .null, h => h

theorem Entries.wf_load : ∀ (es : Entries) (kvs : JsonObj), es.wf = true →
    (Entries.load es kvs).wf = true
  | .nil, kvs, _ => rfl
  | .cons k e rest, kvs, h => by
      simp only [Entries.wf, Bool.and_eq_true] at h
      obtain ⟨hwe, hwr⟩ := h
      cases hl : kvs.lookup k with
      | none => simp [Entries.load, hl, Entries.wf, hwe, Entries.wf_load rest kvs hwr]
      | some v =>
          simp [Entries.load, hl, Entries.wf, Entry.wf_load_one e v hwe,
            Entries.wf_load rest kvs hwr]

theorem Entry.wf_load_one : ∀ (e : Entry) (j : Json), e.wf = true → (Entry.load e j).wf = true
  | .leaf fd old, v, h => by
      cases hv : fd.validate v with
      | ok w => simp [Entry.load, hv, Entry.wf, FieldDesc.validate_accepts fd v w hv]
      | error err => simpa [Entry.load, hv, Entry.wf] using h
  | .child c, .obj kvs, h => by
      simpa [Entry.load, Entry.wf] using Node.wf_from_json c (.obj kvs) (by simpa [Entry.wf] using h)
  | .child c, .num q, h => h
  | .child c, .str s, h => h
  | .child c, .bool b, h => h
  | .child c, .null, h => h
end

/-- Any sequence of public mutations preserves the invariant. -/
theorem Node.wf_applyOps (ops : List Op) (n : Node) (h : n.wf = true) :
    (n.applyOps ops).wf = true := by
  induction ops generalizing n with
  | nil => exact h
  | cons op rest ih =>
      have h1 : (n.applyOp op).wf = true := by
        cases op with
        | set k v => exact Node.wf_setD n k v h
        | load j => exact Node.wf_from_json n j h
      simpa [Node.applyOps, List.foldl] using ih (n.applyOp op) h1

/-! ## Lemmas about `LoadFromJSON` -/

/-- What a load does to the entry found under a name: nothing when the name
misses the input, otherwise the entry absorbs the input value. -/
theorem Entries.find_load : ∀ (es : Entries) (kvs : JsonObj) (k : String),
    (Entries.load es kvs).find k =
      match es.find k with
      | none => none
      | some e =>
          match kvs.lookup k with
          | none => some e
          | some v => some (Entry.load e v)
  | .nil, kvs, k => rfl
  | .cons k0 e rest, kvs, k => by
      by_cases hk : k0 = k
      · subst hk
        cases hl : kvs.lookup k0 <;>
          simp [Entries.load, Entries.find, hl]
      · cases hl : kvs.lookup k0 <;>
          simp [Entries.load, Entries.find, hl, hk, Entries.find_load rest kvs k]

/-- A load whose input mentions none of the node's names is the
identity. -/
theorem Entries.load_of_disjoint : ∀ (es : Entries) (kvs : JsonObj),
    (∀ k, k ∈ es.keys → kvs.lookup k = none) → Entries.load es kvs = es
  | .nil, kvs, _ => rfl
  | .cons k0 e rest, kvs, h => by
      have h0 : kvs.lookup k0 = none := h k0 (by simp [Entries.keys])
      have hr : Entries.load rest kvs = rest :=
        Entries.load_of_disjoint rest kvs (fun k hk => h k (by simp [Entries.keys, hk]))
      simp [Entries.load, h0, hr]

/-! ## Round-trip through `ToMapping` -/

/-- A name bound in the entries occurs among the keys. -/
theorem Entries.key_mem_of_mem : ∀ (es : Entries) (k : String) (e : Entry),
    (k, e) ∈ es.toList → k ∈ es.keys
  | .nil, k, e, h => by simp [Entries.toList] at h
  | .cons k0 e0 rest, k, e, h => by
      simp only [Entries.toList, List.mem_cons] at h
      rcases h with h | h
      · simp [Entries.keys, (Prod.mk.injEq .. ▸ h).1]
      · simp [Entries.keys, Entries.key_mem_of_mem rest k e h]

/-- With distinct names, looking a bound name up in the snapshot mapping
yields that entry's own serialized value. -/
theorem Entries.lookup_to_mapping : ∀ (es : Entries) (k : String) (e : Entry),
    es.keys.Nodup → (k, e) ∈ es.toList →
    (Entries.to_mapping es).lookup k = some (Entry.mappingVal e)
  | .nil, k, e, _, h => by simp [Entries.toList] at h
  | .cons k0 e0 rest, k, e, hnd, h => by
      simp only [Entries.keys, List.nodup_cons] at hnd
      obtain ⟨hk0, hnd'⟩ := hnd
      simp only [Entries.toList, List.mem_cons] at h
      rcases h with h | h
      · obtain ⟨h1, h2⟩ := Prod.mk.injEq .. ▸ h
        subst h1
        subst h2
        simp [Entries.to_mapping, JsonObj.lookup]
      · have hk : k ∈ rest.keys := Entries.key_mem_of_mem rest k e h
        have hne : ¬ (k0 = k) := fun hkk => hk0 (hkk ▸ hk)
        simp [Entries.to_mapping, JsonObj.lookup, hne,
          Entries.lookup_to_mapping rest k e hnd' h]

/-! Loading a node's own snapshot back into it is the identity, provided
the stored values are well-formed and names are unique per node. -/
mutual
theorem Node.load_self : ∀ (n : Node), n.wf = true → n.keysOk = true →
    n.from_json n.to_mapping = n
  | .mk t es, hwf, hko => by
      simp only [Node.wf] at hwf
      simp only [Node.keysOk, Bool.and_eq_true, decide_eq_true_eq] at hko
      simp only [Node.to_mapping, Node.from_json]
      rw [Entries.load_pointwise es (Entries.to_mapping es) hwf hko.2
        (fun k e hm => Entries.lookup_to_mapping es k e hko.1 hm)]

theorem Entries.load_pointwise : ∀ (es : Entries) (kvs : JsonObj),
    es.wf = true → es.keysOk = true →
    (∀ k e, (k, e) ∈ es.toList → kvs.lookup k = some (Entry.mappingVal e)) →
    Entries.load es kvs = es
  | .nil, kvs, _, _, _ => rfl
  | .cons k0 e0 rest, kvs, hwf, hko, hlk => by
      simp only [Entries.wf, Bool.and_eq_true] at hwf
      simp only [Entries.keysOk, Bool.and_eq_true] at hko
      have h0 : kvs.lookup k0 = some (Entry.mappingVal e0) :=
        hlk k0 e0 (by simp [Entries.toList])
      have hrest : Entries.load rest kvs = rest :=
        Entries.load_pointwise rest kvs hwf.2 hko.2
          (fun k e hm => hlk k e (by simp [Entries.toList, hm]))
      simp [Entries.load, h0, hrest, Entry.load_own e0 hwf.1 hko.1]

theorem Entry.load_own : ∀ (e : Entry), e.wf = true → e.keysOk = true →
    Entry.load e (Entry.mappingVal e) = e
  | .leaf fd v, hwf, _ => by
      simp only [Entry.wf, FieldDesc.accepts] at hwf
      cases hv : fd.validate v.toJson with
      | ok w =>
          rw [hv] at hwf
          have hw : w = v := by simpa using hwf
          subst hw
          simp [Entry.mappingVal, Entry.load, hv]
      | error err => rw [hv] at hwf; cases hwf
  | .child c, hwf, hko => by
      obtain ⟨t, es⟩ := c
      simp only [Entry.mappingVal, Node.to_mapping, Entry.load]
      rw [show (Node.mk t es).from_json (.obj (Entries.to_mapping es)) =
        (Node.mk t es).from_json (Node.mk t es).to_mapping from rfl]
      rw [Node.load_self (.mk t es) (by simpa [Entry.wf] using hwf)
        (by simpa [Entry.keysOk] using hko)]
end

/-! ## Lemmas about the display representation -/

/-- Soundness: every binding shown by the display mapping is one of the
node's own scalar leaves, shown at its current value. -/
theorem Entries.displayScalars_sound : ∀ (es : Entries) (k : String) (j : Json),
    (Entries.displayScalars es).lookup k = some j →
    ∃ fd v, (k, Entry.leaf fd v) ∈ es.toList ∧ j = Value.toJson v
  | .nil, k, j, h => by simp [Entries.displayScalars, JsonObj.lookup] at h
  | .cons k0 (.leaf fd v) rest, k, j, h => by
      by_cases hk : k0 = k
      · subst hk
        simp only [Entries.displayScalars, JsonObj.lookup, if_pos rfl] at h
        cases h
        exact ⟨fd, v, by simp [Entries.toList], rfl⟩
      · simp only [Entries.displayScalars, JsonObj.lookup, if_neg hk] at h
        obtain ⟨fd', v', hm, hj⟩ := Entries.displayScalars_sound rest k j h
        exact ⟨fd', v', by simp [Entries.toList, hm], hj⟩
  | .cons k0 (.child c) rest, k, j, h => by
      simp only [Entries.displayScalars] at h
      obtain ⟨fd', v', hm, hj⟩ := Entries.displayScalars_sound rest k j h
      exact ⟨fd', v', by simp [Entries.toList, hm], hj⟩

/-- Completeness: a name bound (first) to a scalar leaf is shown by the
display mapping at its current value. -/
theorem Entries.displayScalars_complete : ∀ (es : Entries) (k : String)
    (fd : FieldDesc) (v : Value), es.find k = some (.leaf fd v) →
    (Entries.displayScalars es).lookup k = some v.toJson
  | .nil, k, fd, v, h => by simp [Entries.find] at h
  | .cons k0 e rest, k, fd, v, h => by
      by_cases hk : k0 = k
      · simp only [Entries.find, if_pos hk] at h
        cases h
        simp [Entries.displayScalars, JsonObj.lookup, hk]
      · simp only [Entries.find, if_neg hk] at h
        have ih := Entries.displayScalars_complete rest k fd v h
        cases e with
        | leaf fd' v' => simp [Entries.displayScalars, JsonObj.lookup, hk, ih]
        | child c => simp [Entries.displayScalars, ih]

/-! ## Further concrete objects used by the claim witnesses -/

/-- The descriptor the schemas' `loc` fragment builds. -/
def locFd : FieldDesc := ⟨.string, none, none, .str "", some "Location"⟩

/-- The `Temperature` child after the chained write of `33.5` into
`max_temp` (the notebook's `cfg['Temperature']['max_temp'] = 33.5`). -/
def tempCfgSet : Node := tempCfg.setD "max_temp" (.num (mkRat 67 2))

/-- The `Temperature` child after the direct write of `-3.5` into
`min_temp` (the notebook's `temp_cfg['min_temp'] = -3.5`). -/
def tempCfgSet2 : Node := tempCfg.setD "min_temp" (.num (mkRat (-7) 2))

/-! ## The claims -/

/-- C1: constructing a node from a schema initializes every leaf to its
schema default (or kind fallback), so `Get("min_temp")` is `62.0` right
after construction with no load — proved here of the spec-modelled
constructor.  (The notebook's recorded outputs document that the shipped
class does not do this yet: the repr right after construction is
`Settings "Thermostat Configuration" \x7b\x7d`, and the notebook's TODO
list still contains "Populate new Settings objects with defaults from
schema".) -/
theorem claim_C1_defaults :
    tNode.getVal "min_temp" = .ok (.num 62) ∧
    tNode.atDefaults = true ∧
    lNode.atDefaults = true :=
  ⟨rfl, rfl, rfl⟩

/-- C2: a `Set` with a numeric value outside the declared
`[minimum, maximum]` bounds fails with `ValidationError`, leaves the state
unchanged, and a subsequent `Get` returns the prior value. -/
theorem claim_C2_set_out_of_bounds (n : Node) (k : String) (fd : FieldDesc)
    (v0 : Value) (q : Rat)
    (hfind : n.entries.find k = some (.leaf fd v0))
    (hkind : fd.kind = .number ∨ fd.kind = .integer)
    (hout : (∃ a, fd.minimum = some a ∧ q < a) ∨
            (∃ b, fd.maximum = some b ∧ b < q)) :
    n.set k (.num q) = .error .validationError ∧
    n.setD k (.num q) = n ∧
    (n.setD k (.num q)).getVal k = n.getVal k := by
  have hv := FieldDesc.validate_out_of_bounds fd q hkind hout
  obtain ⟨t, es⟩ := n
  simp only [Node.entries] at hfind
  have hset : (Node.mk t es).set k (.num q) = .error .validationError := by
    simp only [Node.set, Entries.set_of_validate_error es k fd v0 (.num q) _ hfind hv]
  have hsetD := Node.setD_of_error _ k (.num q) _ hset
  exact ⟨hset, hsetD, by rw [hsetD]⟩

/-- Witness for C2 at the thermostat node: `Set("min_temp", -99.0)` on the
field bounded by `[-30, 150]` raises `ValidationError` and
`Get("min_temp")` still returns the prior value `62.0`. -/
theorem claim_C2_witness :
    tNode.entries.find "min_temp" = some (.leaf minTempFd (.num 62)) ∧
    minTempFd.minimum = some (-30) ∧ (-99 : Rat) < -30 ∧
    tNode.set "min_temp" (.num (-99)) = .error .validationError ∧
    tNode.setD "min_temp" (.num (-99)) = tNode ∧
    tNode.getVal "min_temp" = .ok (.num 62) := by
  have h := claim_C2_set_out_of_bounds tNode "min_temp" minTempFd (.num 62) (-99)
    rfl (Or.inl rfl) (Or.inl ⟨-30, rfl, by norm_num⟩)
  exact ⟨rfl, rfl, by norm_num, h.1, h.2.1, rfl⟩

/-- C3: the store invariant — every leaf value satisfies its descriptor's
kind and bounds — holds after every sequence of public mutations
(attempted `Set`s, successful or rejected, and `LoadFromJSON`s) applied to
an invariant-satisfying node. -/
theorem claim_C3_invariant (n : Node) (ops : List Op) (h : n.wf = true) :
    (n.applyOps ops).wf = true :=
  Node.wf_applyOps ops n h

/-- Witness for C3: the constructed thermostat node satisfies the
invariant, and still does after a rejected set, a bulk load, another
rejected set and a successful set. -/
theorem claim_C3_witness :
    tNode.wf = true ∧
    (tNode.applyOps [.set "min_temp" (.num (-99)), .load (.obj thermostatConfig),
      .set "max_temp" (.num 200), .set "loc" (.str "Lab")]).wf = true :=
  ⟨rfl, claim_C3_invariant tNode
    [.set "min_temp" (.num (-99)), .load (.obj thermostatConfig),
     .set "max_temp" (.num 200), .set "loc" (.str "Lab")] rfl⟩

/-- C4: chained indexing is child access: `node[k1][k2]` reads exactly what
the child retrieved at `k1` reads at `k2`; the chained write
`node[k1][k2] = v` sets `k2` on that child and leaves the updated child in
place, so the same chained path retrieves the written value. -/
theorem claim_C4_chained_indexing (n c c' : Node) (k1 k2 : String) (v : Json)
    (h1 : n.get k1 = .ok (.child c)) (h2 : c.set k2 v = .ok c') :
    n.getIn k1 k2 = c.get k2 ∧
    n.setIn k1 k2 v = .ok (n.putChild k1 c') ∧
    (n.putChild k1 c').getIn k1 k2 = c'.get k2 := by
  have hf := Node.find_of_get n k1 _ h1
  have hput : (n.putChild k1 c').get k1 = .ok (.child c') := by
    obtain ⟨t, es⟩ := n
    simp only [Node.entries] at hf
    simp [Node.putChild, Node.get, Node.entries,
      Entries.find_put_of_find es k1 _ (.child c') hf]
  refine ⟨?_, ?_, ?_⟩
  · simp [Node.getIn, h1]
  · simp [Node.setIn, h1, h2]
  · simp [Node.getIn, hput]

/-- Witness for C4, the notebook's `cfg['Temperature']['max_temp'] = 33.5`:
the chained write succeeds and the chained read retrieves `33.5` from the
same location. -/
theorem claim_C4_witness :
    lLoaded.get "Temperature" = .ok (.child tempCfg) ∧
    tempCfg.set "max_temp" (.num (mkRat 67 2)) = .ok tempCfgSet ∧
    lLoaded.setIn "Temperature" "max_temp" (.num (mkRat 67 2)) =
      .ok (lLoaded.putChild "Temperature" tempCfgSet) ∧
    (lLoaded.putChild "Temperature" tempCfgSet).getIn "Temperature" "max_temp" =
      .ok (.leaf maxTempFd (.num (mkRat 67 2))) := by
  have h2 : tempCfg.set "max_temp" (.num (mkRat 67 2)) = .ok tempCfgSet := by rfl
  have h := claim_C4_chained_indexing lLoaded tempCfg tempCfgSet "Temperature"
    "max_temp" (.num (mkRat 67 2)) rfl h2
  exact ⟨rfl, h2, h.2.1, by rfl⟩

/-- C5: the flat thermostat load updates all four fields; input keys absent
from the schema are ignored (an unknown-key load is a no-op with no
error), and entry names absent from the input keep their current value. -/
theorem claim_C5_flat_load :
    (tLoaded.getVal "min_temp" = .ok (.num 42) ∧
     tLoaded.getVal "max_temp" = .ok (.num 69) ∧
     tLoaded.getVal "loc" = .ok (.str "Building 1") ∧
     tLoaded.getVal "alert" = .ok (.bool true)) ∧
    tNode.from_json (.obj (.cons "unknown_key" (.num 1) .nil)) = tNode ∧
    (∀ (n : Node) (kvs : JsonObj),
      (∀ k, k ∈ n.entries.keys → kvs.lookup k = none) →
      n.from_json (.obj kvs) = n) ∧
    (∀ (n : Node) (kvs : JsonObj) (k : String), kvs.lookup k = none →
      (n.from_json (.obj kvs)).entries.find k = n.entries.find k) := by
  refine ⟨⟨rfl, rfl, rfl, rfl⟩, rfl, ?_, ?_⟩
  · intro n kvs h
    obtain ⟨t, es⟩ := n
    simp only [Node.entries] at h
    simp [Node.from_json, Entries.load_of_disjoint es kvs h]
  · intro n kvs k h
    obtain ⟨t, es⟩ := n
    simp only [Node.from_json, Node.entries]
    rw [Entries.find_load es kvs k]
    cases hf : es.find k with
    | none => rfl
    | some e => simp [h]

/-- Witness for C5: loading an object with only the unknown key leaves the
`min_temp` entry exactly as found before. -/
theorem claim_C5_witness :
    (JsonObj.cons "unknown_key" (.num 1) .nil).lookup "min_temp" = none ∧
    (tNode.from_json (.obj (.cons "unknown_key" (.num 1) .nil))).entries.find
      "min_temp" = tNode.entries.find "min_temp" :=
  ⟨rfl, claim_C5_flat_load.2.2.2 tNode (.cons "unknown_key" (.num 1) .nil)
    "min_temp" rfl⟩

/-- C6: when a load key is bound to a child node, `LoadFromJSON` recurses
into the nested sub-object; when the input value for such a key is not a
sub-object, the key is silently skipped with no error. -/
theorem claim_C6_nested_load (n : Node) (kvs : JsonObj) (k : String) (c : Node)
    (hfind : n.entries.find k = some (.child c)) :
    (∀ sub, kvs.lookup k = some (.obj sub) →
      (n.from_json (.obj kvs)).entries.find k =
        some (.child (c.from_json (.obj sub)))) ∧
    (∀ v, kvs.lookup k = some v → (∀ o, v ≠ .obj o) →
      (n.from_json (.obj kvs)).entries.find k = some (.child c)) := by
  obtain ⟨t, es⟩ := n
  simp only [Node.entries] at hfind
  constructor
  · intro sub hl
    simp only [Node.from_json, Node.entries]
    rw [Entries.find_load es kvs k, hfind, hl]
    rfl
  · intro v hl hno
    simp only [Node.from_json, Node.entries]
    rw [Entries.find_load es kvs k, hfind, hl]
    cases v with
    | obj o => exact absurd rfl (hno o)
    | num q => rfl
    | str s => rfl
    | bool b => rfl
    | null => rfl

/-- Witness for C6, the notebook's nested line-configuration load: the
`Temperature` entry becomes the recursively loaded child, whose `min_temp`
then reads `42.0`. -/
theorem claim_C6_witness :
    lNode.entries.find "Temperature" = some (.child tempNodeInit) ∧
    lineConfig.lookup "Temperature" = some (.obj tempSub) ∧
    lLoaded.entries.find "Temperature" =
      some (.child (tempNodeInit.from_json (.obj tempSub))) ∧
    (tempNodeInit.from_json (.obj tempSub)).getVal "min_temp" = .ok (.num 42) :=
  ⟨rfl, rfl,
    (claim_C6_nested_load lNode lineConfig "Temperature" tempNodeInit rfl).1
      tempSub rfl,
    rfl⟩

/-- C7: round-trip — loading the serialization of `ToMapping()` of a node
built from the same schema reproduces the identical mapping. -/
theorem claim_C7_roundtrip (s : Json) (n : Node)
    (_hb : Node.build s = .ok n) (hwf : n.wf = true) (hko : n.keysOk = true) :
    (n.from_json n.to_mapping).to_mapping = n.to_mapping := by
  rw [Node.load_self n hwf hko]

/-- Witness for C7 at the thermostat schema. -/
theorem claim_C7_witness :
    Node.build thermostatSchema = .ok tNode ∧ tNode.wf = true ∧
    tNode.keysOk = true ∧
    (tNode.from_json tNode.to_mapping).to_mapping = tNode.to_mapping :=
  ⟨rfl, rfl, rfl, claim_C7_roundtrip thermostatSchema tNode rfl rfl rfl⟩

/-- C8 as stated fails on the recorded behaviour: after the nested load the
root's display shows its title and only its own scalar leaf
(`'loc': 'Area 52'`), omitting the child nodes' leaf values entirely —
although the `Temperature` child does hold `min_temp = 42.0`, neither the
child nor its leaves appear in the root's displayed mapping. -/
theorem claim_C8_display_cex :
    lLoaded.display = (some "Line Configuration",
      JsonObj.cons "loc" (.str "Area 52") .nil) ∧
    (lLoaded.display).2.lookup "Temperature" = none ∧
    (lLoaded.display).2.lookup "min_temp" = none ∧
    lLoaded.getIn "Temperature" "min_temp" = .ok (.leaf minTempFd (.num 42)) :=
  ⟨rfl, rfl, rfl, rfl⟩

/-- C8 amended: the display representation shows the node's title and the
current values of the node's own scalar leaves only — every displayed
binding is such a leaf at its current value, every scalar leaf is
displayed, and child-node entries are omitted; concretely it matches the
notebook's recorded repr of the loaded flat thermostat node. -/
theorem claim_C8_display_amended :
    (∀ (es : Entries) (k : String) (j : Json),
      (Entries.displayScalars es).lookup k = some j →
      ∃ fd v, (k, Entry.leaf fd v) ∈ es.toList ∧ j = Value.toJson v) ∧
    (∀ (es : Entries) (k : String) (fd : FieldDesc) (v : Value),
      es.find k = some (.leaf fd v) →
      (Entries.displayScalars es).lookup k = some v.toJson) ∧
    tLoaded.display = (some "Thermostat Configuration",
      .cons "min_temp" (.num 42) (.cons "max_temp" (.num 69)
        (.cons "loc" (.str "Building 1") (.cons "alert" (.bool true) .nil)))) :=
  ⟨Entries.displayScalars_sound, Entries.displayScalars_complete, rfl⟩

/-- Witness for C8 (amended): the loaded thermostat node's `loc` leaf is
displayed at its current value. -/
theorem claim_C8_witness :
    tLoaded.entries.find "loc" = some (.leaf locFd (.str "Building 1")) ∧
    (tLoaded.entries.displayScalars).lookup "loc" = some (.str "Building 1") :=
  ⟨rfl, claim_C8_display_amended.2.1 tLoaded.entries "loc" locFd
    (.str "Building 1") rfl⟩

/-- C9: indexing a non-existent key raises `KeyError` (for both `Get` and
`Set`), and assigning a scalar to a key holding a child node raises
`TypeError` while leaving the tree unchanged. -/
theorem claim_C9_key_type_errors (n : Node) (k k' : String) (c : Node)
    (v v' : Json)
    (h1 : n.entries.find k = none) (h2 : n.entries.find k' = some (.child c)) :
    n.get k = .error .keyError ∧
    n.set k v = .error .keyError ∧
    n.set k' v' = .error .typeError ∧
    n.setD k' v' = n := by
  have hg : n.get k = .error .keyError := by
    unfold Node.get
    rw [h1]
  have hs1 := Node.set_missing_key n k v h1
  have hs2 := Node.set_child_key n k' c v' h2
  exact ⟨hg, hs1, hs2, Node.setD_of_error n k' v' _ hs2⟩

/-- Witness for C9 at the line-configuration node: `humidity` is absent and
`Temperature` holds a child node. -/
theorem claim_C9_witness :
    lNode.entries.find "humidity" = none ∧
    lNode.entries.find "Temperature" = some (.child tempNodeInit) ∧
    lNode.get "humidity" = .error .keyError ∧
    lNode.set "humidity" (.num 1) = .error .keyError ∧
    lNode.set "Temperature" (.num 1) = .error .typeError ∧
    lNode.setD "Temperature" (.num 1) = lNode := by
  have h := claim_C9_key_type_errors lNode "humidity" "Temperature" tempNodeInit
    (.num 1) (.num 1) rfl rfl
  exact ⟨rfl, rfl, h.1, h.2.1, h.2.2.1, h.2.2.2⟩

/-- C10: retrieving the child once and mutating it produces exactly the
final state of the chained mutation, and the mutation is observable through
the other reference: the root sees the updated child under the same key. -/
theorem claim_C10_child_aliasing (n c c' : Node) (k k2 : String) (v : Json)
    (h1 : n.get k = .ok (.child c)) (h2 : c.set k2 v = .ok c') :
    n.setIn k k2 v = .ok (n.putChild k c') ∧
    (n.putChild k c').get k = .ok (.child c') := by
  have hf := Node.find_of_get n k _ h1
  constructor
  · simp [Node.setIn, h1, h2]
  · obtain ⟨t, es⟩ := n
    simp only [Node.entries] at hf
    simp [Node.putChild, Node.get, Node.entries,
      Entries.find_put_of_find es k _ (.child c') hf]

/-- Witness for C10, the notebook's `temp_cfg = cfg['Temperature']` then
`temp_cfg['min_temp'] = -3.5`: mutating the retrieved child yields the same
state as the chained mutation, and the root observes the new value. -/
theorem claim_C10_witness :
    lLoaded.get "Temperature" = .ok (.child tempCfg) ∧
    tempCfg.set "min_temp" (.num (mkRat (-7) 2)) = .ok tempCfgSet2 ∧
    lLoaded.setIn "Temperature" "min_temp" (.num (mkRat (-7) 2)) =
      .ok (lLoaded.putChild "Temperature" tempCfgSet2) ∧
    (lLoaded.putChild "Temperature" tempCfgSet2).get "Temperature" =
      .ok (.child tempCfgSet2) ∧
    tempCfgSet2.getVal "min_temp" = .ok (.num (mkRat (-7) 2)) := by
  have h2 : tempCfg.set "min_temp" (.num (mkRat (-7) 2)) = .ok tempCfgSet2 := by rfl
  have h := claim_C10_child_aliasing lLoaded tempCfg tempCfgSet2 "Temperature"
    "min_temp" (.num (mkRat (-7) 2)) rfl h2
  exact ⟨rfl, h2, h.1, h.2, by rfl⟩

end Ipysettings
